import Mathlib

/-!
Verification of the Library Management System core
(`src/Library_management.py`) against its specification.

The Python core is shallowly embedded: the `Librarian` object becomes an
explicit state record threaded through the operations, the CSV files on
disk become a `Storage` record, Python `int` becomes `Int`, Python `str`
becomes `String`, and `datetime` values become calendar `Date` records
whose subtraction is modelled by a day-ordinal function (days-from-civil).
Python string formatting and splitting are modelled character-faithfully,
because `return_book` matches loans by substring containment and parses
dates back out of formatted strings.
-/
/-- Constant `BASE_PENALTY_RATE = 1` from the source. -/
def BASE_PENALTY_RATE : Int := 1

/-- Constant `MAX_PENALTY = 50` from the source. -/
def MAX_PENALTY : Int := 50

/-- Constant `GRACE_PERIOD = 2` from the source. -/
def GRACE_PERIOD : Int := 2

/-- A calendar date, the embedding of a Python `datetime` at midnight
(only the date part is ever used by the core). -/
structure Date where
  year : Nat
  month : Nat
  day : Nat
deriving DecidableEq, Repr

/-- Gregorian leap-year test, as `calendar.isleap` / `datetime` use it. -/
def isLeap (y : Nat) : Bool :=
  y % 4 == 0 && (y % 100 != 0 || y % 400 == 0)

/-- Number of days in a month of a given year. -/
def daysInMonth (y m : Nat) : Nat :=
  if m == 2 then (if isLeap y then 29 else 28)
  else if m == 4 || m == 6 || m == 9 || m == 11 then 30
  else 31

/-- A valid calendar date in the range `datetime.strptime` accepts
(years 1 to 9999). -/
def Date.valid (d : Date) : Bool :=
  1 ≤ d.year && d.year ≤ 9999 && 1 ≤ d.month && d.month ≤ 12 &&
  1 ≤ d.day && d.day ≤ daysInMonth d.year d.month

/-- Day ordinal of a date (days-from-civil; day 0 is 0000-03-01).  The
difference of two ordinals equals Python's `(d2 - d1).days` for
midnight datetimes. -/
def Date.toDays (dt : Date) : Nat :=
  let y := if dt.month ≤ 2 then dt.year - 1 else dt.year
  let era := y / 400
  let yoe := y - era * 400
  let mp := (dt.month + 9) % 12
  let doy := (153 * mp + 2) / 5 + (dt.day - 1)
  let doe := yoe * 365 + yoe / 4 - yoe / 100 + doy
  era * 146097 + doe

/-- Inverse of `Date.toDays` (civil-from-days), used to embed
`datetime + timedelta(days=n)`. -/
def dateOfDays (z : Nat) : Date :=
  let era := z / 146097
  let doe := z % 146097
  let yoe := (doe - doe / 1460 + doe / 36524 - doe / 146096) / 365
  let y := yoe + era * 400
  let doy := doe - (365 * yoe + yoe / 4 - yoe / 100)
  let mp := (5 * doy + 2) / 153
  let d := doy - (153 * mp + 2) / 5 + 1
  let m := if mp < 10 then mp + 3 else mp - 9
  { year := if m ≤ 2 then y + 1 else y, month := m, day := d }

/-- Embedding of `datetime + timedelta(days=n)`. -/
def addDays (d : Date) (n : Nat) : Date :=
  dateOfDays (d.toDays + n)

/-- Decimal rendering of a number left-padded with zeros, as Python's
`%Y` / `%m` / `%d` format codes produce. -/
def padNum (width n : Nat) : String :=
  let s := toString n
  String.mk (List.replicate (width - s.length) '0') ++ s

/-- Embedding of `f"{d:%Y-%m-%d}"` / `strftime("%Y-%m-%d")`. -/
def Date.fmt (d : Date) : String :=
  padNum 4 d.year ++ "-" ++ padNum 2 d.month ++ "-" ++ padNum 2 d.day

/-- Value of a decimal digit character, `none` on a non-digit. -/
def digitVal (c : Char) : Option Nat :=
  if '0' ≤ c && c ≤ '9' then some (c.toNat - '0'.toNat) else none

/-- Parse a nonempty all-digit character list (at most `maxLen` digits)
as a natural number, the way a `strptime` numeric field is read. -/
def parseNatField (maxLen : Nat) (cs : List Char) : Option Nat :=
  if cs.isEmpty || maxLen < cs.length then none
  else cs.foldlM (fun acc c => (digitVal c).map (fun v => acc * 10 + v)) 0

/-- Does the character list start with the given (second) list?  Helper
for substring search and splitting. -/
def leadEq : List Char → List Char → Bool
  | _, [] => true
  | [], _ :: _ => false
  | h :: t, n :: ns => h == n && leadEq t ns

/-- Contiguous-sublist test on character lists, the embedding of
Python's `needle in hay` on strings. -/
def listContainsSub : List Char → List Char → Bool
  | [], needle => needle.isEmpty
  | h :: t, needle => leadEq (h :: t) needle || listContainsSub t needle

/-- Embedding of Python's `needle in hay` substring test. -/
def strContains (hay needle : String) : Bool :=
  listContainsSub hay.data needle.data

/-- Fuel-driven worker for `pySplit`; `fuel` is an upper bound on the
length of the list still to scan, so the `fuel = 0` fallback is never
reached by `pySplit` itself. -/
def pySplitAux : Nat → List Char → List Char → List Char → List (List Char)
  | _, [], _sep, acc => [acc.reverse]
  | 0, l, _sep, acc => [acc.reverse ++ l]
  | fuel + 1, h :: t, sep, acc =>
    if leadEq (h :: t) sep then
      acc.reverse :: pySplitAux fuel (List.drop sep.length (h :: t)) sep []
    else
      pySplitAux fuel t sep (h :: acc)

/-- Embedding of Python's `s.split(sep)` for a nonempty separator:
splits at each non-overlapping occurrence, left to right; in particular
`pySplit sep "" = [""]`. -/
def pySplit (sep s : String) : List String :=
  (pySplitAux s.data.length s.data sep.data []).map String.mk

/-- Embedding of Python's `sep.join(parts)`; in particular
`pyJoin sep [] = ""`. -/
def pyJoin (sep : String) : List String → String
  | [] => ""
  | [x] => x
  | x :: y :: t => x ++ sep ++ pyJoin sep (y :: t)

/-- Embedding of `datetime.strptime(s, "%Y-%m-%d")`: three dash-separated
numeric fields (year up to 4 digits, month and day up to 2) forming a
valid calendar date; `none` models the `ValueError` raised otherwise. -/
def parseDate (s : String) : Option Date :=
  match pySplit "-" s with
  | [ys, ms, ds] =>
    match parseNatField 4 ys.data, parseNatField 2 ms.data, parseNatField 2 ds.data with
    | some y, some m, some d =>
      let dt : Date := ⟨y, m, d⟩
      if dt.valid then some dt else none
    | _, _, _ => none
  | _ => none

/-- Embedding of `Librarian.calculate_penalty` on already-parsed dates:
`overdue_days = (return_date - issue_date).days - GRACE_PERIOD`; zero if
not positive, else `min(overdue_days * BASE_PENALTY_RATE, MAX_PENALTY)`. -/
def calculate_penalty (issue_due ret : Date) : Int :=
  let overdue_days : Int := ((ret.toDays : Int) - (issue_due.toDays : Int)) - GRACE_PERIOD
  if overdue_days ≤ 0 then 0
  else min (overdue_days * BASE_PENALTY_RATE) MAX_PENALTY

/-- Embedding of `Librarian.calculate_penalty` on the raw strings it
receives: both arguments go through `strptime`; `none` models the
uncaught `ValueError` on a malformed date. -/
def calculate_penalty_str (issue_due ret : String) : Option Int := do
  let d ← parseDate issue_due
  let r ← parseDate ret
  pure (calculate_penalty d r)

/-- Embedding of class `Book`: `available_copies` is a Python `int`. -/
structure Book where
  book_id : String
  title : String
  author : String
  available_copies : Int
deriving DecidableEq, Repr

/-- Embedding of class `Student`; each element of `borrowed_books` is a
raw loan string of the shape produced by `issue_book`,
`f"{book_id} (Due: {due_date:%Y-%m-%d})"`. -/
structure Student where
  student_id : String
  name : String
  borrowed_books : List String
deriving DecidableEq, Repr

/-- Embedding of `Student.can_borrow`: `len(self.borrowed_books) < 3`. -/
def Student.can_borrow (s : Student) : Bool :=
  s.borrowed_books.length < 3

/-- One row of the logs CSV; `update_logs` appends dicts whose values
are all strings, so the in-memory log entry and the stored row
coincide. -/
structure LogEntry where
  transaction_type : String
  book_id : String
  student_id : String
  date : String
deriving DecidableEq, Repr

/-- One row of the books CSV, the dict built by `Book.to_csv`.  The CSV
layer stores `available_copies` as its decimal string; decimal
rendering of a Python `int` is injective and `int(...)` inverts it, so
the row keeps the `Int` itself. -/
structure BookRow where
  book_id : String
  title : String
  author : String
  available_copies : Int
deriving DecidableEq, Repr

/-- One row of the students CSV, the dict built by `Student.to_csv`:
`borrowed_books` is the single comma-joined string. -/
structure StudentRow where
  student_id : String
  name : String
  borrowed_books : String
deriving DecidableEq, Repr

/-- Embedding of `Book.to_csv`. -/
def Book.to_csv (b : Book) : BookRow :=
  ⟨b.book_id, b.title, b.author, b.available_copies⟩

/-- Embedding of `Student.to_csv`: `",".join(self.borrowed_books)`. -/
def Student.to_csv (s : Student) : StudentRow :=
  ⟨s.student_id, s.name, pyJoin "," s.borrowed_books⟩

/-- The three CSV files on disk (`books.csv`, `students.csv`,
`logs.csv`). -/
structure Storage where
  booksFile : List BookRow
  studentsFile : List StudentRow
  logsFile : List LogEntry
deriving DecidableEq, Repr

/-- Embedding of the in-memory `Librarian` collections. -/
structure Librarian where
  books : List Book
  students : List Student
  logs : List LogEntry
deriving DecidableEq, Repr

/-- Full system state: the in-memory `Librarian` plus the CSV files. -/
structure Sys where
  lib : Librarian
  store : Storage
deriving DecidableEq, Repr

/-- Embedding of `Book(**row)` as `Librarian.__init__` performs it
(`int(available_copies)` inverts the decimal rendering). -/
def loadBookRow (r : BookRow) : Book :=
  ⟨r.book_id, r.title, r.author, r.available_copies⟩

/-- Embedding of the `Student(...)` construction in `Librarian.__init__`:
`borrowed_books=s['borrowed_books'].split(',')`, then the constructor's
`borrowed_books if borrowed_books else []` (Python list truthiness). -/
def loadStudentRow (r : StudentRow) : Student :=
  let bb := pySplit "," r.borrowed_books
  ⟨r.student_id, r.name, if bb.isEmpty then [] else bb⟩

/-- Embedding of `Librarian.__init__` reading the three CSV files. -/
def loadLib (st : Storage) : Librarian :=
  { books := st.booksFile.map loadBookRow
    students := st.studentsFile.map loadStudentRow
    logs := st.logsFile }

/-- The storage produced by one `update_logs` save plus one `save_data`
call: all three collections serialized from the given `Librarian`. -/
def saveAll (lib : Librarian) : Storage :=
  { booksFile := lib.books.map Book.to_csv
    studentsFile := lib.students.map Student.to_csv
    logsFile := lib.logs }

/-- Embedding of `Librarian.update_logs`: append one entry dated with
the current date (`datetime.now().strftime("%Y-%m-%d")`) and rewrite
the logs CSV. -/
def update_logs (sys : Sys) (transaction_type book_id student_id : String)
    (now : Date) : Sys :=
  let logs := sys.lib.logs ++ [⟨transaction_type, book_id, student_id, Date.fmt now⟩]
  { lib := { sys.lib with logs := logs }
    store := { sys.store with logsFile := logs } }

/-- Embedding of `Librarian.save_data`: rewrite the books and students
CSV files from the in-memory collections. -/
def save_data (sys : Sys) : Sys :=
  { sys with
    store := { sys.store with
      booksFile := sys.lib.books.map Book.to_csv
      studentsFile := sys.lib.students.map Student.to_csv } }

/-- Apply `f` to the first element satisfying `p`, leaving every other
element in place — the effect of Python mutating the object returned by
`next((x for x in xs if p x), None)`. -/
def updateFirst (p : α → Bool) (f : α → α) : List α → List α
  | [] => []
  | x :: xs => if p x then f x :: xs else x :: updateFirst p f xs

/-- Result of `Librarian.issue_book`; each constructor stands for the
exact message string the source returns, with `issued due` standing for
`f"Book issued successfully. Due date: {due:%Y-%m-%d}"`. -/
inductive IssueRes where
  | bookNotFound
  | studentNotFound
  | noCopiesAvailable
  | borrowLimitReached
  | issued (due : Date)
deriving DecidableEq, Repr

/-- Result of `Librarian.return_book`: `notFound` is the combined
"Book or Student not found." message, `exn` models the uncaught
`IndexError`/`ValueError` a malformed loan string or date raises, and
`success p` stands for `f"Book returned successfully. Penalty: ${p}"`. -/
inductive ReturnRes where
  | notFound
  | loanNotFound
  | exn
  | success (penalty : Int)
deriving DecidableEq, Repr

/-- Embedding of `Librarian.issue_book`.  `now` is the value of
`datetime.now()` during the call (used both for the due date and for
the log timestamp). -/
def issue_book (sys : Sys) (book_id student_id : String) (now : Date) :
    IssueRes × Sys :=
  match sys.lib.books.find? (fun b => b.book_id == book_id) with
  | none => (.bookNotFound, sys)
  | some book =>
    match sys.lib.students.find? (fun s => s.student_id == student_id) with
    | none => (.studentNotFound, sys)
    | some student =>
      if book.available_copies ≤ 0 then (.noCopiesAvailable, sys)
      else if !student.can_borrow then (.borrowLimitReached, sys)
      else
        let due := addDays now 14
        let books := updateFirst (fun b => b.book_id == book_id)
          (fun b => { b with available_copies := b.available_copies - 1 })
          sys.lib.books
        let students := updateFirst (fun s => s.student_id == student_id)
          (fun s => { s with borrowed_books :=
            s.borrowed_books ++ [book_id ++ " (Due: " ++ Date.fmt due ++ ")"] })
          sys.lib.students
        let sys1 : Sys := { sys with lib := { sys.lib with books := books, students := students } }
        (.issued due, save_data (update_logs sys1 "issue" book_id student_id now))

/-- Embedding of `borrowed[0].split("Due: ")[1]`: the chunk after the
first occurrence of `"Due: "`; `none` models the `IndexError` when the
separator does not occur. -/
def splitAfterDue (s : String) : Option String :=
  match pySplit "Due: " s with
  | _ :: c :: _ => some c
  | _ => none

/-- Embedding of `Librarian.return_book`.  `return_date` is the raw
caller-supplied string; `now` is `datetime.now()` during the call
(used only for the log timestamp). -/
def return_book (sys : Sys) (book_id student_id return_date : String)
    (now : Date) : ReturnRes × Sys :=
  match sys.lib.books.find? (fun b => b.book_id == book_id),
        sys.lib.students.find? (fun s => s.student_id == student_id) with
  | some _book, some student =>
    match student.borrowed_books.filter (fun b => strContains b book_id) with
    | [] => (.loanNotFound, sys)
    | first :: _ =>
      match splitAfterDue first with
      | none => (.exn, sys)
      | some chunk =>
        match calculate_penalty_str (chunk.dropRight 1) return_date with
        | none => (.exn, sys)
        | some penalty =>
          let students := updateFirst (fun s => s.student_id == student_id)
            (fun s => { s with borrowed_books := s.borrowed_books.erase first })
            sys.lib.students
          let books := updateFirst (fun b => b.book_id == book_id)
            (fun b => { b with available_copies := b.available_copies + 1 })
            sys.lib.books
          let sys1 : Sys := { sys with lib := { sys.lib with books := books, students := students } }
          (.success penalty, save_data (update_logs sys1 "return" book_id student_id now))
  | _, _ => (.notFound, sys)

/-- Embedding of `LibraryGUI.add_book` after its input validation
(`copies.isdigit()` guarantees a non-negative integer): append the new
`Book` and save. -/
def add_book (sys : Sys) (book_id title author : String) (copies : Nat) : Sys :=
  save_data { sys with lib := { sys.lib with
    books := sys.lib.books ++ [⟨book_id, title, author, (copies : Int)⟩] } }

/-- Embedding of `LibraryGUI.add_student`: append a new `Student` with
no borrowed books and save. -/
def add_student (sys : Sys) (student_id name : String) : Sys :=
  save_data { sys with lib := { sys.lib with
    students := sys.lib.students ++ [⟨student_id, name, []⟩] } }

/-- Embedding of Python's `s.lower()` (character-wise lowercasing; the
ids, titles, authors and names handled here are ASCII, where the two
agree). -/
def pyLower (s : String) : String :=
  String.mk (s.data.map Char.toLower)

/-- Embedding of `Librarian.search_book`: dicts of the books whose
title or author contains the query case-insensitively
(`query.lower() in book.title.lower() or query.lower() in
book.author.lower()`). -/
def search_book (sys : Sys) (query : String) : List BookRow :=
  (sys.lib.books.filter (fun book =>
    strContains (pyLower book.title) (pyLower query) ||
    strContains (pyLower book.author) (pyLower query))).map Book.to_csv

/-- Embedding of `Librarian.search_student`: dicts of the students
whose name contains the query case-insensitively or whose id equals
the query exactly (`query.lower() in student.name.lower() or
query == student.student_id`). -/
def search_student (sys : Sys) (query : String) : List StudentRow :=
  (sys.lib.students.filter (fun student =>
    strContains (pyLower student.name) (pyLower query) ||
    query == student.student_id)).map Student.to_csv

/-- One call into the mutating API, for reasoning about arbitrary
operation sequences. -/
inductive Op where
  | issue (book_id student_id : String) (now : Date)
  | ret (book_id student_id return_date : String) (now : Date)
  | addBook (book_id title author : String) (copies : Nat)
  | addStudent (student_id name : String)

/-- State reached after one operation. -/
def applyOp (sys : Sys) : Op → Sys
  | .issue b s n => (issue_book sys b s n).2
  | .ret b s r n => (return_book sys b s r n).2
  | .addBook b t a c => add_book sys b t a c
  | .addStudent s n => add_student sys s n

/-- State reached after a sequence of operations. -/
def applyOps (sys : Sys) (ops : List Op) : Sys :=
  ops.foldl applyOp sys

/-- Discriminator for a successful issue result. -/
def IssueRes.isIssued : IssueRes → Bool
  | .issued _ => true
  | _ => false

/-- Discriminator for a successful return result. -/
def ReturnRes.isSuccess : ReturnRes → Bool
  | .success _ => true
  | _ => false

/-- Number of successful issue/return transactions a sequence of
operations performs from a given start state. -/
def succCount (sys : Sys) : List Op → Nat
  | [] => 0
  | op :: rest =>
    (match op with
     | .issue b s n => if (issue_book sys b s n).1.isIssued then 1 else 0
     | .ret b s r n => if (return_book sys b s r n).1.isSuccess then 1 else 0
     | _ => 0) + succCount (applyOp sys op) rest

/-- Remove the first element satisfying `p`, the specification-side
description of removing "the first matching entry in insertion order". -/
def removeFirstBy (p : α → Bool) : List α → List α
  | [] => []
  | x :: xs => if p x then xs else x :: removeFirstBy p xs

/-- Specification-side predicate: the student holds a loan record for
exactly this `book_id`, i.e. a borrowed entry of the shape
`book_id ++ " (Due: " ++ ... ` produced by issuing that very book. -/
def hasLoanFor (st : Student) (bid : String) : Bool :=
  st.borrowed_books.any (fun e => leadEq e.data (bid ++ " (Due: ").data)

/-- The librarian state `issue_book` moves to on success, written out. -/
def issueSuccState (sys : Sys) (book_id student_id : String) (now : Date) : Sys :=
  save_data (update_logs
    ⟨{ sys.lib with
       books := updateFirst (fun b => b.book_id == book_id)
         (fun b => { b with available_copies := b.available_copies - 1 })
         sys.lib.books
       students := updateFirst (fun s => s.student_id == student_id)
         (fun s => { s with borrowed_books :=
           s.borrowed_books ++ [book_id ++ " (Due: " ++ Date.fmt (addDays now 14) ++ ")"] })
         sys.lib.students },
     sys.store⟩ "issue" book_id student_id now)

/-- The librarian state `return_book` moves to on success, written out;
`first` is the loan string being removed. -/
def retSuccState (sys : Sys) (book_id student_id first : String) (now : Date) : Sys :=
  save_data (update_logs
    ⟨{ sys.lib with
       books := updateFirst (fun b => b.book_id == book_id)
         (fun b => { b with available_copies := b.available_copies + 1 })
         sys.lib.books
       students := updateFirst (fun s => s.student_id == student_id)
         (fun s => { s with borrowed_books := s.borrowed_books.erase first })
         sys.lib.students },
     sys.store⟩ "return" book_id student_id now)

/-- Concrete fixture: a book with two available copies. -/
def wBook : Book := ⟨"B1", "Dune", "Herbert", 2⟩

/-- Concrete fixture: a student with no loans. -/
def wStudent : Student := ⟨"S1", "Ann", []⟩

/-- Concrete fixture: a system with one book and one student. -/
def wSys : Sys := ⟨⟨[wBook], [wStudent], []⟩, ⟨[], [], []⟩⟩

/-- Concrete fixture date. -/
def wNow : Date := ⟨2024, 1, 1⟩

/-- Concrete fixture: same system but the book has zero copies. -/
def wSysNoCopies : Sys :=
  ⟨⟨[⟨"B1", "Dune", "Herbert", 0⟩], [wStudent], []⟩, ⟨[], [], []⟩⟩

/-- Concrete fixture: a student already holding three loans. -/
def wStudent3 : Student :=
  ⟨"S1", "Ann", ["B2 (Due: 2024-01-10)", "B3 (Due: 2024-01-11)", "B4 (Due: 2024-01-12)"]⟩

/-- Concrete fixture: same system but the student holds three loans. -/
def wSysFull : Sys := ⟨⟨[wBook], [wStudent3], []⟩, ⟨[], [], []⟩⟩

/-- Concrete fixture: one copy of `B1` out on loan to `S1`, due
2024-01-01. -/
def wSysRet : Sys :=
  ⟨⟨[⟨"B1", "Dune", "Herbert", 1⟩], [⟨"S1", "Ann", ["B1 (Due: 2024-01-01)"]⟩], []⟩,
   ⟨[], [], []⟩⟩

/-- Concrete fixture: a student whose only loan is for book `AB1`. -/
def c6Student : Student := ⟨"S1", "Ann", ["AB1 (Due: 2024-01-01)"]⟩

/-- Concrete fixture: two books whose ids overlap as substrings
(`B1` occurs inside `AB1`), with the student holding only `AB1`. -/
def c6Sys : Sys :=
  ⟨⟨[⟨"B1", "Dune", "Herbert", 2⟩, ⟨"AB1", "Other", "Poe", 1⟩], [c6Student], []⟩,
   ⟨[], [], []⟩⟩

/-- Concrete fixture: a librarian state whose single student has an
empty `borrowed_books` list. -/
def c9Lib : Librarian := ⟨[⟨"B1", "Dune", "Herbert", 2⟩], [⟨"S1", "Ann", []⟩], []⟩

/-- The empty needle is a sublist of every character list. -/
theorem listContainsSub_nil (l : List Char) : listContainsSub l [] = true := by
  cases l with
  | nil => rfl
  | cons h t => simp [listContainsSub, leadEq]

/-- The empty string is a substring of every string. -/
theorem strContains_empty (s : String) : strContains s "" = true := by
  simpa [strContains] using listContainsSub_nil s.data

example : Date.toDays ⟨2024, 1, 1⟩ = 739191 := by decide

example : Date.toDays ⟨2024, 1, 4⟩ - Date.toDays ⟨2024, 1, 1⟩ = 3 := by decide

example : Date.toDays ⟨2024, 6, 1⟩ - Date.toDays ⟨2024, 1, 1⟩ = 152 := by decide

example : addDays ⟨2024, 1, 1⟩ 14 = ⟨2024, 1, 15⟩ := by decide

example : addDays ⟨2024, 12, 25⟩ 14 = ⟨2025, 1, 8⟩ := by decide

example : Date.fmt ⟨2024, 1, 15⟩ = "2024-01-15" := by decide

example : parseDate "2024-01-15" = some ⟨2024, 1, 15⟩ := by decide

example : parseDate "2024-13-01" = none := by decide

example : calculate_penalty ⟨2024, 1, 1⟩ ⟨2024, 1, 4⟩ = 1 := by decide

example : calculate_penalty_str "2024-01-01" "2024-06-01" = some 50 := by decide

example : strContains "AB1 (Due: 2024-01-01)" "B1" = true := by decide

example : strContains "AB1 (Due: 2024-01-01)" "C9" = false := by decide

example : pySplit "," "" = [""] := by decide

example : pySplit "," "a,b" = ["a", "b"] := by decide

example : pyJoin "," [] = "" := by decide

example :
    (issue_book ⟨⟨[⟨"B1", "T", "A", 2⟩], [⟨"S1", "Ann", []⟩], []⟩, ⟨[], [], []⟩⟩
      "B1" "S1" ⟨2024, 1, 1⟩).1 = .issued ⟨2024, 1, 15⟩ := by decide

example :
    (return_book ⟨⟨[⟨"B1", "T", "A", 1⟩], [⟨"S1", "Ann", ["B1 (Due: 2024-01-01)"]⟩], []⟩,
      ⟨[], [], []⟩⟩ "B1" "S1" "2024-01-10" ⟨2024, 1, 10⟩).1 = .success 7 := by decide

/-- If `f` preserves `p`, the first `p`-element of the updated list is
the updated first `p`-element of the original. -/
theorem find?_updateFirst (p : α → Bool) (f : α → α)
    (hpf : ∀ a, p a = true → p (f a) = true) (l : List α) :
    List.find? p (updateFirst p f l) = (List.find? p l).map f := by
  induction l with
  | nil => rfl
  | cons x xs ih =>
    by_cases hx : p x = true
    · simp [updateFirst, hx, List.find?_cons_of_pos, hpf x hx]
    · simp only [Bool.not_eq_true] at hx
      simp [updateFirst, hx, List.find?_cons_of_neg, ih]

/-- Any element of the updated list is an old element or the image of
the first `p`-element. -/
theorem mem_updateFirst {p : α → Bool} {f : α → α} {a : α} {l : List α}
    (h : a ∈ updateFirst p f l) :
    a ∈ l ∨ ∃ b, List.find? p l = some b ∧ a = f b := by
  induction l with
  | nil => simp [updateFirst] at h
  | cons x xs ih =>
    by_cases hx : p x = true
    · simp only [updateFirst, hx, if_true] at h
      rcases List.mem_cons.mp h with h1 | h1
      · exact Or.inr ⟨x, List.find?_cons_of_pos _ hx, h1⟩
      · exact Or.inl (List.mem_cons_of_mem _ h1)
    · simp only [Bool.not_eq_true] at hx
      simp only [updateFirst, hx, Bool.false_eq_true, if_false] at h
      rcases List.mem_cons.mp h with h1 | h1
      · exact Or.inl (h1 ▸ List.mem_cons_self _ _)
      · rcases ih h1 with h2 | ⟨b, hb, rfl⟩
        · exact Or.inl (List.mem_cons_of_mem _ h2)
        · exact Or.inr ⟨b, by simp [List.find?_cons_of_neg, hx, hb], rfl⟩

/-- Elements not satisfying `p` are untouched by `updateFirst`. -/
theorem mem_updateFirst_of_not {p : α → Bool} {f : α → α} {a : α} {l : List α}
    (h : a ∈ l) (ha : p a = false) : a ∈ updateFirst p f l := by
  induction l with
  | nil => simp at h
  | cons x xs ih =>
    rcases List.mem_cons.mp h with rfl | h1
    · simp [updateFirst, ha]
    · by_cases hx : p x = true
      · simp [updateFirst, hx, List.mem_cons_of_mem _ h1]
      · simp only [Bool.not_eq_true] at hx
        simp [updateFirst, hx, ih h1]

/-- Conversely, an element of the updated list that does not satisfy
`p` was already in the original list (for `p`-preserving `f`). -/
theorem mem_of_mem_updateFirst {p : α → Bool} {f : α → α} {a : α} {l : List α}
    (h : a ∈ updateFirst p f l) (ha : p a = false)
    (hpf : ∀ a, p a = true → p (f a) = true) : a ∈ l := by
  rcases mem_updateFirst h with h1 | ⟨b, hb, rfl⟩
  · exact h1
  · have := hpf b (List.find?_some hb)
    rw [this] at ha
    exact absurd ha (by simp)

/-- `updateFirst` preserves length. -/
theorem length_updateFirst (p : α → Bool) (f : α → α) (l : List α) :
    (updateFirst p f l).length = l.length := by
  induction l with
  | nil => rfl
  | cons x xs ih =>
    by_cases hx : p x = true
    · simp [updateFirst, hx]
    · simp only [Bool.not_eq_true] at hx
      simp [updateFirst, hx, ih]

/-- The head of `l.filter p` satisfies `p`. -/
theorem filter_head_sat {p : α → Bool} {l : List α} {x : α} {rest : List α}
    (h : l.filter p = x :: rest) : p x = true :=
  (List.mem_filter.mp (h ▸ List.mem_cons_self x rest)).2

/-- Erasing the head of `l.filter p` from `l` removes exactly the first
`p`-element in insertion order. -/
theorem erase_filter_head [BEq α] [LawfulBEq α] {p : α → Bool} {l : List α}
    {x : α} {rest : List α} (h : l.filter p = x :: rest) :
    l.erase x = removeFirstBy p l := by
  induction l with
  | nil => simp at h
  | cons y ys ih =>
    by_cases hy : p y = true
    · rw [List.filter_cons_of_pos hy] at h
      obtain ⟨rfl, -⟩ := List.cons.injEq .. ▸ h
      simp [List.erase_cons, removeFirstBy, hy]
    · simp only [Bool.not_eq_true] at hy
      rw [List.filter_cons_of_neg (by simp [hy])] at h
      have hxy : (y == x) = false := by
        by_cases hbe : y = x
        · subst hbe
          rw [filter_head_sat h] at hy
          simp at hy
        · simp [hbe]
      simp [List.erase_cons, hxy, removeFirstBy, hy, ih h]

/-- `removeFirstBy` never lengthens a list. -/
theorem length_removeFirstBy_le (p : α → Bool) (l : List α) :
    (removeFirstBy p l).length ≤ l.length := by
  induction l with
  | nil => simp [removeFirstBy]
  | cons x xs ih =>
    by_cases hx : p x = true
    · simp [removeFirstBy, hx]
    · simp only [Bool.not_eq_true] at hx
      simp only [removeFirstBy, hx, Bool.false_eq_true, if_false, List.length_cons]
      omega

/-- Erasing never lengthens a list. -/
theorem length_erase_le [BEq α] (a : α) (l : List α) :
    (l.erase a).length ≤ l.length := by
  induction l with
  | nil => simp
  | cons x xs ih =>
    rw [List.erase_cons]
    by_cases hx : (x == a) = true
    · simp [hx]
    · simp only [Bool.not_eq_true] at hx
      simp only [hx, Bool.false_eq_true, if_false, List.length_cons]
      omega

/-- Full case analysis of `issue_book`: either some precondition fails,
the result is not a success, and the state is unchanged, or all four
preconditions hold and the state steps to `issueSuccState`. -/
theorem issue_book_cases (sys : Sys) (bid sid : String) (now : Date) :
    ((issue_book sys bid sid now).1.isIssued = false ∧
      (issue_book sys bid sid now).2 = sys) ∨
    (∃ book student,
      List.find? (fun b => b.book_id == bid) sys.lib.books = some book ∧
      List.find? (fun s => s.student_id == sid) sys.lib.students = some student ∧
      ¬ book.available_copies ≤ 0 ∧ student.can_borrow = true ∧
      issue_book sys bid sid now =
        (.issued (addDays now 14), issueSuccState sys bid sid now)) := by
  cases hb : List.find? (fun b => b.book_id == bid) sys.lib.books with
  | none => exact Or.inl (by simp [issue_book, hb, IssueRes.isIssued])
  | some book =>
    cases hs : List.find? (fun s => s.student_id == sid) sys.lib.students with
    | none => exact Or.inl (by simp [issue_book, hb, hs, IssueRes.isIssued])
    | some student =>
      by_cases hc : book.available_copies ≤ 0
      · exact Or.inl (by simp [issue_book, hb, hs, hc, IssueRes.isIssued])
      · by_cases hl : student.can_borrow = true
        · exact Or.inr ⟨book, student, rfl, rfl, hc, hl,
            by simp [issue_book, hb, hs, hc, hl, issueSuccState]⟩
        · simp only [Bool.not_eq_true] at hl
          exact Or.inl (by simp [issue_book, hb, hs, hc, hl, IssueRes.isIssued])

/-- Full case analysis of `return_book`: either the result is not a
success and the state is unchanged, or the lookups and parses succeed
and the state steps to `retSuccState`. -/
theorem return_book_cases (sys : Sys) (bid sid rd : String) (now : Date) :
    ((return_book sys bid sid rd now).1.isSuccess = false ∧
      (return_book sys bid sid rd now).2 = sys) ∨
    (∃ book student first rest chunk pen,
      List.find? (fun b => b.book_id == bid) sys.lib.books = some book ∧
      List.find? (fun s => s.student_id == sid) sys.lib.students = some student ∧
      student.borrowed_books.filter (fun b => strContains b bid) = first :: rest ∧
      splitAfterDue first = some chunk ∧
      calculate_penalty_str (chunk.dropRight 1) rd = some pen ∧
      return_book sys bid sid rd now =
        (.success pen, retSuccState sys bid sid first now)) := by
  cases hb : List.find? (fun b => b.book_id == bid) sys.lib.books with
  | none => exact Or.inl (by simp [return_book, hb, ReturnRes.isSuccess])
  | some book =>
    cases hs : List.find? (fun s => s.student_id == sid) sys.lib.students with
    | none => exact Or.inl (by simp [return_book, hb, hs, ReturnRes.isSuccess])
    | some student =>
      cases hf : student.borrowed_books.filter (fun b => strContains b bid) with
      | nil => exact Or.inl (by simp [return_book, hb, hs, hf, ReturnRes.isSuccess])
      | cons first rest =>
        cases hsp : splitAfterDue first with
        | none => exact Or.inl (by simp [return_book, hb, hs, hf, hsp, ReturnRes.isSuccess])
        | some chunk =>
          cases hpen : calculate_penalty_str (chunk.dropRight 1) rd with
          | none =>
            exact Or.inl (by simp [return_book, hb, hs, hf, hsp, hpen, ReturnRes.isSuccess])
          | some pen =>
            exact Or.inr ⟨book, student, first, rest, chunk, pen, rfl, rfl, hf, hsp, hpen,
              by simp [return_book, hb, hs, hf, hsp, hpen, retSuccState]⟩

/-- C1: the four `issue_book` preconditions are checked in a fixed
order — book exists, student exists, copies available, borrow limit —
the first failure determines the result, and every failure leaves the
state (in memory and on disk) unchanged. -/
theorem issue_preconditions_ordered (sys : Sys) (bid sid : String) (now : Date) :
    (List.find? (fun b => b.book_id == bid) sys.lib.books = none →
      issue_book sys bid sid now = (.bookNotFound, sys)) ∧
    (∀ book, List.find? (fun b => b.book_id == bid) sys.lib.books = some book →
      List.find? (fun s => s.student_id == sid) sys.lib.students = none →
      issue_book sys bid sid now = (.studentNotFound, sys)) ∧
    (∀ book student,
      List.find? (fun b => b.book_id == bid) sys.lib.books = some book →
      List.find? (fun s => s.student_id == sid) sys.lib.students = some student →
      book.available_copies ≤ 0 →
      issue_book sys bid sid now = (.noCopiesAvailable, sys)) ∧
    (∀ book student,
      List.find? (fun b => b.book_id == bid) sys.lib.books = some book →
      List.find? (fun s => s.student_id == sid) sys.lib.students = some student →
      0 < book.available_copies →
      3 ≤ student.borrowed_books.length →
      issue_book sys bid sid now = (.borrowLimitReached, sys)) := by
  refine ⟨fun hb => by simp [issue_book, hb], ?_, ?_, ?_⟩
  · intro book hb hs
    simp [issue_book, hb, hs]
  · intro book student hb hs hc
    simp [issue_book, hb, hs, hc]
  · intro book student hb hs hc hl
    have hc' : ¬ book.available_copies ≤ 0 := by omega
    have hcb : student.can_borrow = false := by
      simp only [Student.can_borrow, decide_eq_false_iff_not]
      omega
    simp [issue_book, hb, hs, hc', hcb]

/-- Witness for C1: each of the four failure branches evaluated on a
concrete system. -/
theorem issue_preconditions_ordered_witness :
    issue_book wSys "BX" "S1" wNow = (.bookNotFound, wSys) ∧
    issue_book wSys "B1" "SX" wNow = (.studentNotFound, wSys) ∧
    issue_book wSysNoCopies "B1" "S1" wNow = (.noCopiesAvailable, wSysNoCopies) ∧
    issue_book wSysFull "B1" "S1" wNow = (.borrowLimitReached, wSysFull) :=
  ⟨(issue_preconditions_ordered wSys "BX" "S1" wNow).1 (by decide),
   (issue_preconditions_ordered wSys "B1" "SX" wNow).2.1 wBook (by decide) (by decide),
   (issue_preconditions_ordered wSysNoCopies "B1" "S1" wNow).2.2.1
     ⟨"B1", "Dune", "Herbert", 0⟩ wStudent (by decide) (by decide) (by decide),
   (issue_preconditions_ordered wSysFull "B1" "S1" wNow).2.2.2
     wBook wStudent3 (by decide) (by decide) (by decide) (by decide)⟩

/-- C2: a fully successful `issue_book` returns the due date
`now + 14 days`, decrements that book's `available_copies` by one,
appends the loan record for the book and due date to that student's
`borrowed_books`, appends one Issue log entry dated `now`, and persists
the whole resulting state. -/
theorem issue_success_spec (sys : Sys) (bid sid : String) (now : Date)
    (book : Book) (student : Student)
    (hb : List.find? (fun b => b.book_id == bid) sys.lib.books = some book)
    (hs : List.find? (fun s => s.student_id == sid) sys.lib.students = some student)
    (hc : 0 < book.available_copies)
    (hl : student.borrowed_books.length < 3) :
    (issue_book sys bid sid now).1 = .issued (addDays now 14) ∧
    List.find? (fun b => b.book_id == bid) (issue_book sys bid sid now).2.lib.books =
      some { book with available_copies := book.available_copies - 1 } ∧
    List.find? (fun s => s.student_id == sid) (issue_book sys bid sid now).2.lib.students =
      some { student with borrowed_books := student.borrowed_books ++
        [bid ++ " (Due: " ++ Date.fmt (addDays now 14) ++ ")"] } ∧
    (issue_book sys bid sid now).2.lib.logs =
      sys.lib.logs ++ [⟨"issue", bid, sid, Date.fmt now⟩] ∧
    (issue_book sys bid sid now).2.store = saveAll (issue_book sys bid sid now).2.lib := by
  have hc' : ¬ book.available_copies ≤ 0 := by omega
  have hcb : student.can_borrow = true := by
    simp only [Student.can_borrow, decide_eq_true_eq]
    omega
  have heq : issue_book sys bid sid now =
      (.issued (addDays now 14), issueSuccState sys bid sid now) := by
    simp [issue_book, hb, hs, hc', hcb, issueSuccState]
  rw [heq]
  refine ⟨rfl, ?_, ?_, ?_, ?_⟩
  · have : (issueSuccState sys bid sid now).lib.books =
        updateFirst (fun b => b.book_id == bid)
          (fun b => { b with available_copies := b.available_copies - 1 })
          sys.lib.books := by
      simp [issueSuccState, save_data, update_logs]
    rw [this, find?_updateFirst (fun b => b.book_id == bid)
      (fun b => { b with available_copies := b.available_copies - 1 })
      (fun a ha => ha) sys.lib.books, hb]
    rfl
  · have : (issueSuccState sys bid sid now).lib.students =
        updateFirst (fun s => s.student_id == sid)
          (fun s => { s with borrowed_books := s.borrowed_books ++
            [bid ++ " (Due: " ++ Date.fmt (addDays now 14) ++ ")"] })
          sys.lib.students := by
      simp [issueSuccState, save_data, update_logs]
    rw [this, find?_updateFirst (fun s => s.student_id == sid)
      (fun s => { s with borrowed_books := s.borrowed_books ++
        [bid ++ " (Due: " ++ Date.fmt (addDays now 14) ++ ")"] })
      (fun a ha => ha) sys.lib.students, hs]
    rfl
  · simp [issueSuccState, save_data, update_logs]
  · simp [issueSuccState, save_data, update_logs, saveAll]

/-- Books reached by a successful issue, as an `updateFirst`. -/
theorem issueSucc_books (sys : Sys) (bid sid : String) (now : Date) :
    (issueSuccState sys bid sid now).lib.books =
      updateFirst (fun b => b.book_id == bid)
        (fun b => { b with available_copies := b.available_copies - 1 })
        sys.lib.books := by
  simp [issueSuccState, save_data, update_logs]

/-- Students reached by a successful issue, as an `updateFirst`. -/
theorem issueSucc_students (sys : Sys) (bid sid : String) (now : Date) :
    (issueSuccState sys bid sid now).lib.students =
      updateFirst (fun s => s.student_id == sid)
        (fun s => { s with borrowed_books := s.borrowed_books ++
          [bid ++ " (Due: " ++ Date.fmt (addDays now 14) ++ ")"] })
        sys.lib.students := by
  simp [issueSuccState, save_data, update_logs]

/-- Logs reached by a successful issue: one appended entry dated `now`. -/
theorem issueSucc_logs (sys : Sys) (bid sid : String) (now : Date) :
    (issueSuccState sys bid sid now).lib.logs =
      sys.lib.logs ++ [⟨"issue", bid, sid, Date.fmt now⟩] := by
  simp [issueSuccState, save_data, update_logs]

/-- Books reached by a successful return, as an `updateFirst`. -/
theorem retSucc_books (sys : Sys) (bid sid first : String) (now : Date) :
    (retSuccState sys bid sid first now).lib.books =
      updateFirst (fun b => b.book_id == bid)
        (fun b => { b with available_copies := b.available_copies + 1 })
        sys.lib.books := by
  simp [retSuccState, save_data, update_logs]

/-- Students reached by a successful return, as an `updateFirst`. -/
theorem retSucc_students (sys : Sys) (bid sid first : String) (now : Date) :
    (retSuccState sys bid sid first now).lib.students =
      updateFirst (fun s => s.student_id == sid)
        (fun s => { s with borrowed_books := s.borrowed_books.erase first })
        sys.lib.students := by
  simp [retSuccState, save_data, update_logs]

/-- Logs reached by a successful return: one appended entry dated
`now` (the operation time, not the caller-supplied return date). -/
theorem retSucc_logs (sys : Sys) (bid sid first : String) (now : Date) :
    (retSuccState sys bid sid first now).lib.logs =
      sys.lib.logs ++ [⟨"return", bid, sid, Date.fmt now⟩] := by
  simp [retSuccState, save_data, update_logs]

/-- Witness for C2: the successful issue evaluated on a concrete
system. -/
theorem issue_success_spec_witness :
    (issue_book wSys "B1" "S1" wNow).1 = .issued (addDays wNow 14) ∧
    List.find? (fun b => b.book_id == "B1") (issue_book wSys "B1" "S1" wNow).2.lib.books =
      some { wBook with available_copies := wBook.available_copies - 1 } ∧
    List.find? (fun s => s.student_id == "S1") (issue_book wSys "B1" "S1" wNow).2.lib.students =
      some { wStudent with borrowed_books := wStudent.borrowed_books ++
        ["B1" ++ " (Due: " ++ Date.fmt (addDays wNow 14) ++ ")"] } ∧
    (issue_book wSys "B1" "S1" wNow).2.lib.logs =
      wSys.lib.logs ++ [⟨"issue", "B1", "S1", Date.fmt wNow⟩] ∧
    (issue_book wSys "B1" "S1" wNow).2.store = saveAll (issue_book wSys "B1" "S1" wNow).2.lib :=
  issue_success_spec wSys "B1" "S1" wNow wBook wStudent
    (by decide) (by decide) (by decide) (by decide)

/-- An invariant preserved by every single operation is preserved by
every operation sequence. -/
theorem applyOps_inv (Inv : Sys → Prop)
    (hstep : ∀ sys op, Inv sys → Inv (applyOp sys op)) :
    ∀ (ops : List Op) (sys : Sys), Inv sys → Inv (applyOps sys ops) := by
  intro ops
  induction ops with
  | nil => exact fun sys h => h
  | cons op rest ih =>
    intro sys h
    have : applyOps sys (op :: rest) = applyOps (applyOp sys op) rest := rfl
    rw [this]
    exact ih (applyOp sys op) (hstep sys op h)

/-- One operation preserves the per-student borrow bound. -/
theorem applyOp_borrow_bound (sys : Sys) (op : Op)
    (h : ∀ s ∈ sys.lib.students, s.borrowed_books.length ≤ 3) :
    ∀ s ∈ (applyOp sys op).lib.students, s.borrowed_books.length ≤ 3 := by
  cases op with
  | issue bid sid now =>
    rcases issue_book_cases sys bid sid now with ⟨-, h2⟩ | ⟨book, student, hb, hs, hc, hl, heq⟩
    · show ∀ s ∈ (issue_book sys bid sid now).2.lib.students, _
      rw [h2]
      exact h
    · show ∀ s ∈ (issue_book sys bid sid now).2.lib.students, _
      rw [heq]
      simp only [issueSucc_students]
      intro x hx
      rcases mem_updateFirst hx with hmem | ⟨b0, hfind, rfl⟩
      · exact h x hmem
      · rw [hs] at hfind
        obtain rfl : student = b0 := by injection hfind
        have : student.borrowed_books.length < 3 := by
          simpa [Student.can_borrow] using hl
        simp only [List.length_append, List.length_cons, List.length_nil]
        omega
  | ret bid sid rd now =>
    rcases return_book_cases sys bid sid rd now with ⟨-, h2⟩ |
      ⟨book, student, first, rest, chunk, pen, hb, hs, hf, hsp, hpen, heq⟩
    · show ∀ s ∈ (return_book sys bid sid rd now).2.lib.students, _
      rw [h2]
      exact h
    · show ∀ s ∈ (return_book sys bid sid rd now).2.lib.students, _
      rw [heq]
      simp only [retSucc_students]
      intro x hx
      rcases mem_updateFirst hx with hmem | ⟨b0, hfind, rfl⟩
      · exact h x hmem
      · have hb0 : b0 ∈ sys.lib.students := List.mem_of_find?_eq_some hfind
        have := h b0 hb0
        have hle := length_erase_le first b0.borrowed_books
        simp only
        omega
  | addBook bid t a c =>
    show ∀ s ∈ (add_book sys bid t a c).lib.students, _
    simp only [add_book, save_data]
    exact h
  | addStudent sid n =>
    show ∀ s ∈ (add_student sys sid n).lib.students, _
    simp only [add_student, save_data]
    intro x hx
    rcases List.mem_append.mp hx with hmem | hmem
    · exact h x hmem
    · simp only [List.mem_singleton] at hmem
      subst hmem
      simp

/-- C3: after any sequence of operations every student holds at most 3
loans (given the invariant initially), and an issue attempt for a
student already holding 3 loans — with the earlier preconditions
satisfied — returns `borrowLimitReached` and leaves the entire state
unchanged. -/
theorem borrow_limit_invariant :
    (∀ (sys : Sys) (ops : List Op),
      (∀ s ∈ sys.lib.students, s.borrowed_books.length ≤ 3) →
      ∀ s ∈ (applyOps sys ops).lib.students, s.borrowed_books.length ≤ 3) ∧
    (∀ (sys : Sys) (bid sid : String) (now : Date) (book : Book) (student : Student),
      List.find? (fun b => b.book_id == bid) sys.lib.books = some book →
      List.find? (fun s => s.student_id == sid) sys.lib.students = some student →
      0 < book.available_copies →
      student.borrowed_books.length = 3 →
      issue_book sys bid sid now = (.borrowLimitReached, sys)) := by
  constructor
  · intro sys ops h
    exact applyOps_inv (fun st => ∀ s ∈ st.lib.students, s.borrowed_books.length ≤ 3)
      applyOp_borrow_bound ops sys h
  · intro sys bid sid now book student hb hs hc hl
    have hc' : ¬ book.available_copies ≤ 0 := by omega
    have hcb : student.can_borrow = false := by
      simp only [Student.can_borrow, decide_eq_false_iff_not]
      omega
    simp [issue_book, hb, hs, hc', hcb]

/-- Witness for C3: the invariant holds after a concrete operation
sequence, and a concrete fourth issue attempt is rejected without any
state change. -/
theorem borrow_limit_invariant_witness :
    (∀ s ∈ (applyOps wSysFull [Op.issue "B1" "S1" wNow,
      Op.ret "B2" "S1" "2024-01-05" wNow]).lib.students,
      s.borrowed_books.length ≤ 3) ∧
    issue_book wSysFull "B1" "S1" wNow = (.borrowLimitReached, wSysFull) :=
  ⟨borrow_limit_invariant.1 wSysFull
      [Op.issue "B1" "S1" wNow, Op.ret "B2" "S1" "2024-01-05" wNow]
      (by decide),
   borrow_limit_invariant.2 wSysFull "B1" "S1" wNow wBook wStudent3
      (by decide) (by decide) (by decide) (by decide)⟩

/-- One operation preserves non-negativity of every book's
`available_copies`. -/
theorem applyOp_copies_nonneg (sys : Sys) (op : Op)
    (h : ∀ b ∈ sys.lib.books, 0 ≤ b.available_copies) :
    ∀ b ∈ (applyOp sys op).lib.books, 0 ≤ b.available_copies := by
  cases op with
  | issue bid sid now =>
    rcases issue_book_cases sys bid sid now with ⟨-, h2⟩ | ⟨book, student, hb, hs, hc, hl, heq⟩
    · show ∀ b ∈ (issue_book sys bid sid now).2.lib.books, _
      rw [h2]
      exact h
    · show ∀ b ∈ (issue_book sys bid sid now).2.lib.books, _
      rw [heq]
      simp only [issueSucc_books]
      intro x hx
      rcases mem_updateFirst hx with hmem | ⟨b0, hfind, rfl⟩
      · exact h x hmem
      · rw [hb] at hfind
        obtain rfl : book = b0 := by injection hfind
        simp only
        omega
  | ret bid sid rd now =>
    rcases return_book_cases sys bid sid rd now with ⟨-, h2⟩ |
      ⟨book, student, first, rest, chunk, pen, hb, hs, hf, hsp, hpen, heq⟩
    · show ∀ b ∈ (return_book sys bid sid rd now).2.lib.books, _
      rw [h2]
      exact h
    · show ∀ b ∈ (return_book sys bid sid rd now).2.lib.books, _
      rw [heq]
      simp only [retSucc_books]
      intro x hx
      rcases mem_updateFirst hx with hmem | ⟨b0, hfind, rfl⟩
      · exact h x hmem
      · have hb0 : b0 ∈ sys.lib.books := List.mem_of_find?_eq_some hfind
        have := h b0 hb0
        simp only
        omega
  | addBook bid t a c =>
    show ∀ b ∈ (add_book sys bid t a c).lib.books, _
    simp only [add_book, save_data]
    intro x hx
    rcases List.mem_append.mp hx with hmem | hmem
    · exact h x hmem
    · simp only [List.mem_singleton] at hmem
      subst hmem
      simp
  | addStudent sid n =>
    show ∀ b ∈ (add_student sys sid n).lib.books, _
    simp only [add_student, save_data]
    exact h

/-- C5: `available_copies` stays non-negative under every operation
sequence; a successful issue decrements the issued book by exactly 1, a
successful return increments the returned book by exactly 1, and a
successful issue followed by a matching successful return restores the
book's original record (copies included). -/
theorem copies_nonneg_and_roundtrip :
    (∀ (sys : Sys) (ops : List Op),
      (∀ b ∈ sys.lib.books, 0 ≤ b.available_copies) →
      ∀ b ∈ (applyOps sys ops).lib.books, 0 ≤ b.available_copies) ∧
    (∀ (sys : Sys) (bid sid : String) (now : Date) (book : Book) (student : Student),
      List.find? (fun b => b.book_id == bid) sys.lib.books = some book →
      List.find? (fun s => s.student_id == sid) sys.lib.students = some student →
      0 < book.available_copies →
      student.borrowed_books.length < 3 →
      List.find? (fun b => b.book_id == bid) (issue_book sys bid sid now).2.lib.books =
        some { book with available_copies := book.available_copies - 1 }) ∧
    (∀ (sys : Sys) (bid sid rd : String) (now : Date) (book : Book) (pen : Int),
      List.find? (fun b => b.book_id == bid) sys.lib.books = some book →
      (return_book sys bid sid rd now).1 = .success pen →
      List.find? (fun b => b.book_id == bid) (return_book sys bid sid rd now).2.lib.books =
        some { book with available_copies := book.available_copies + 1 }) ∧
    (∀ (sys : Sys) (bid sid rd : String) (now now2 : Date) (book : Book) (student : Student)
      (pen : Int),
      List.find? (fun b => b.book_id == bid) sys.lib.books = some book →
      List.find? (fun s => s.student_id == sid) sys.lib.students = some student →
      0 < book.available_copies →
      student.borrowed_books.length < 3 →
      (return_book (issue_book sys bid sid now).2 bid sid rd now2).1 = .success pen →
      List.find? (fun b => b.book_id == bid)
        (return_book (issue_book sys bid sid now).2 bid sid rd now2).2.lib.books =
        some book) := by
  have hdec : ∀ (sys : Sys) (bid sid : String) (now : Date) (book : Book) (student : Student),
      List.find? (fun b => b.book_id == bid) sys.lib.books = some book →
      List.find? (fun s => s.student_id == sid) sys.lib.students = some student →
      0 < book.available_copies →
      student.borrowed_books.length < 3 →
      List.find? (fun b => b.book_id == bid) (issue_book sys bid sid now).2.lib.books =
        some { book with available_copies := book.available_copies - 1 } := by
    intro sys bid sid now book student hb hs hc hl
    have hc' : ¬ book.available_copies ≤ 0 := by omega
    have hcb : student.can_borrow = true := by
      simp only [Student.can_borrow, decide_eq_true_eq]
      omega
    have heq : issue_book sys bid sid now =
        (.issued (addDays now 14), issueSuccState sys bid sid now) := by
      simp [issue_book, hb, hs, hc', hcb, issueSuccState]
    rw [heq]
    show List.find? _ (issueSuccState sys bid sid now).lib.books = _
    rw [issueSucc_books, find?_updateFirst (fun b => b.book_id == bid)
      (fun b => { b with available_copies := b.available_copies - 1 })
      (fun a ha => ha) sys.lib.books, hb]
    rfl
  have hinc : ∀ (sys : Sys) (bid sid rd : String) (now : Date) (book : Book) (pen : Int),
      List.find? (fun b => b.book_id == bid) sys.lib.books = some book →
      (return_book sys bid sid rd now).1 = .success pen →
      List.find? (fun b => b.book_id == bid) (return_book sys bid sid rd now).2.lib.books =
        some { book with available_copies := book.available_copies + 1 } := by
    intro sys bid sid rd now book pen hb hres
    rcases return_book_cases sys bid sid rd now with ⟨h1, -⟩ |
      ⟨book', student, first, rest, chunk, pen', hb', hs', hf, hsp, hpen, heq⟩
    · rw [hres] at h1
      simp [ReturnRes.isSuccess] at h1
    · rw [hb] at hb'
      obtain rfl : book = book' := by injection hb'
      rw [heq]
      show List.find? _ (retSuccState sys bid sid first now).lib.books = _
      rw [retSucc_books, find?_updateFirst (fun b => b.book_id == bid)
        (fun b => { b with available_copies := b.available_copies + 1 })
        (fun a ha => ha) sys.lib.books, hb]
      rfl
  refine ⟨?_, hdec, hinc, ?_⟩
  · intro sys ops h
    exact applyOps_inv (fun st => ∀ b ∈ st.lib.books, 0 ≤ b.available_copies)
      applyOp_copies_nonneg ops sys h
  · intro sys bid sid rd now now2 book student pen hb hs hc hl hres
    have h1 := hdec sys bid sid now book student hb hs hc hl
    have h2 := hinc (issue_book sys bid sid now).2 bid sid rd now2
      { book with available_copies := book.available_copies - 1 } pen h1 hres
    rw [h2]
    have : book.available_copies - 1 + 1 = book.available_copies := by omega
    simp only
    rw [this]

/-- Witness for C5: the four parts evaluated on concrete systems,
including a full issue-then-return round trip restoring the original
book record. -/
theorem copies_nonneg_and_roundtrip_witness :
    (∀ b ∈ (applyOps wSys [Op.issue "B1" "S1" wNow]).lib.books,
      0 ≤ b.available_copies) ∧
    List.find? (fun b => b.book_id == "B1") (issue_book wSys "B1" "S1" wNow).2.lib.books =
      some { wBook with available_copies := wBook.available_copies - 1 } ∧
    List.find? (fun b => b.book_id == "B1")
      (return_book wSysRet "B1" "S1" "2024-01-10" wNow).2.lib.books =
      some { (⟨"B1", "Dune", "Herbert", 1⟩ : Book) with available_copies := (1 : Int) + 1 } ∧
    List.find? (fun b => b.book_id == "B1")
      (return_book (issue_book wSys "B1" "S1" wNow).2 "B1" "S1" "2024-01-10"
        ⟨2024, 1, 10⟩).2.lib.books = some wBook :=
  ⟨copies_nonneg_and_roundtrip.1 wSys [Op.issue "B1" "S1" wNow] (by decide),
   copies_nonneg_and_roundtrip.2.1 wSys "B1" "S1" wNow wBook wStudent
     (by decide) (by decide) (by decide) (by decide),
   copies_nonneg_and_roundtrip.2.2.1 wSysRet "B1" "S1" "2024-01-10" wNow
     ⟨"B1", "Dune", "Herbert", 1⟩ 7 (by decide) (by decide),
   copies_nonneg_and_roundtrip.2.2.2 wSys "B1" "S1" "2024-01-10" wNow ⟨2024, 1, 10⟩
     wBook wStudent 0 (by decide) (by decide) (by decide) (by decide) (by decide)⟩

/-- C6 counterexample: with books `B1` and `AB1` on the shelf and the
student holding only a loan for `AB1`, returning `B1` — a book the
student holds no loan for — does not fail with `loanNotFound`: the
substring match `book_id in b` accepts the `AB1` loan string, the call
succeeds with the `AB1` loan's due date, and `B1`'s copy count is
incremented although `B1` was never borrowed. -/
theorem return_loan_matching_counterexample :
    hasLoanFor c6Student "B1" = false ∧
    (return_book c6Sys "B1" "S1" "2024-01-10" wNow).1 = .success 7 ∧
    (return_book c6Sys "B1" "S1" "2024-01-10" wNow).2.lib.books =
      [⟨"B1", "Dune", "Herbert", 3⟩, ⟨"AB1", "Other", "Poe", 1⟩] := by decide

/-- C6 (amended): when book and student exist, `return_book` fails with
`loanNotFound` exactly when no entry of the student's `borrowed_books`
contains `book_id` as a substring (not: no loan for exactly that id);
on that failure the state is fully unchanged; and on success the entry
removed is the first substring-matching entry in insertion order. -/
theorem return_loan_matching (sys : Sys) (bid sid rd : String) (now : Date)
    (book : Book) (student : Student)
    (hb : List.find? (fun b => b.book_id == bid) sys.lib.books = some book)
    (hs : List.find? (fun s => s.student_id == sid) sys.lib.students = some student) :
    ((return_book sys bid sid rd now).1 = .loanNotFound ↔
      student.borrowed_books.filter (fun b => strContains b bid) = []) ∧
    ((return_book sys bid sid rd now).1 = .loanNotFound →
      (return_book sys bid sid rd now).2 = sys) ∧
    (∀ pen, (return_book sys bid sid rd now).1 = .success pen →
      List.find? (fun s => s.student_id == sid)
        (return_book sys bid sid rd now).2.lib.students =
        some { student with
          borrowed_books := removeFirstBy (fun b => strContains b bid) student.borrowed_books }) := by
  cases hf : student.borrowed_books.filter (fun b => strContains b bid) with
  | nil =>
    have heq : return_book sys bid sid rd now = (.loanNotFound, sys) := by
      simp [return_book, hb, hs, hf]
    rw [heq]
    refine ⟨by simp, fun _ => rfl, fun pen h => by simp at h⟩
  | cons first rest =>
    have hne : ∀ pen, (return_book sys bid sid rd now).1 = .success pen →
        List.find? (fun s => s.student_id == sid)
          (return_book sys bid sid rd now).2.lib.students =
          some { student with
            borrowed_books := removeFirstBy (fun b => strContains b bid) student.borrowed_books } := by
      intro pen h
      cases hsp : splitAfterDue first with
      | none =>
        have heq : return_book sys bid sid rd now = (.exn, sys) := by
          simp [return_book, hb, hs, hf, hsp]
        rw [heq] at h
        simp at h
      | some chunk =>
        cases hpen : calculate_penalty_str (chunk.dropRight 1) rd with
        | none =>
          have heq : return_book sys bid sid rd now = (.exn, sys) := by
            simp [return_book, hb, hs, hf, hsp, hpen]
          rw [heq] at h
          simp at h
        | some pen' =>
          have heq : return_book sys bid sid rd now =
              (.success pen', retSuccState sys bid sid first now) := by
            simp [return_book, hb, hs, hf, hsp, hpen, retSuccState]
          rw [heq]
          show List.find? _ (retSuccState sys bid sid first now).lib.students = _
          rw [retSucc_students, find?_updateFirst (fun s => s.student_id == sid)
            (fun s => { s with borrowed_books := s.borrowed_books.erase first })
            (fun a ha => ha) sys.lib.students, hs]
          rw [Option.map_some']
          rw [erase_filter_head hf]
    have hnotlnf : (return_book sys bid sid rd now).1 ≠ .loanNotFound := by
      cases hsp : splitAfterDue first with
      | none =>
        have heq : return_book sys bid sid rd now = (.exn, sys) := by
          simp [return_book, hb, hs, hf, hsp]
        rw [heq]
        simp
      | some chunk =>
        cases hpen : calculate_penalty_str (chunk.dropRight 1) rd with
        | none =>
          have heq : return_book sys bid sid rd now = (.exn, sys) := by
            simp [return_book, hb, hs, hf, hsp, hpen]
          rw [heq]
          simp
        | some pen' =>
          have heq : return_book sys bid sid rd now =
              (.success pen', retSuccState sys bid sid first now) := by
            simp [return_book, hb, hs, hf, hsp, hpen, retSuccState]
          rw [heq]
          simp
    exact ⟨by simp [hnotlnf], fun h => absurd h hnotlnf, hne⟩

/-- Witness for C6 (amended): evaluated on a concrete state where the
student does hold the loan being returned. -/
theorem return_loan_matching_witness :
    ((return_book wSysRet "B1" "S1" "2024-01-10" wNow).1 = .loanNotFound ↔
      (["B1 (Due: 2024-01-01)"] : List String).filter (fun b => strContains b "B1") = []) ∧
    ((return_book wSysRet "B1" "S1" "2024-01-10" wNow).1 = .loanNotFound →
      (return_book wSysRet "B1" "S1" "2024-01-10" wNow).2 = wSysRet) ∧
    (∀ pen, (return_book wSysRet "B1" "S1" "2024-01-10" wNow).1 = .success pen →
      List.find? (fun s => s.student_id == "S1")
        (return_book wSysRet "B1" "S1" "2024-01-10" wNow).2.lib.students =
        some { (⟨"S1", "Ann", ["B1 (Due: 2024-01-01)"]⟩ : Student) with
          borrowed_books := removeFirstBy (fun b => strContains b "B1") ["B1 (Due: 2024-01-01)"] }) :=
  return_loan_matching wSysRet "B1" "S1" "2024-01-10" wNow
    ⟨"B1", "Dune", "Herbert", 1⟩ ⟨"S1", "Ann", ["B1 (Due: 2024-01-01)"]⟩
    (by decide) (by decide)

/-- Splitting off the first operation of a success count. -/
theorem succCount_cons (sys : Sys) (op : Op) (rest : List Op) :
    succCount sys (op :: rest) = succCount sys [op] + succCount (applyOp sys op) rest := by
  cases op <;> simp [succCount]

/-- Each operation appends a (possibly empty) tail to the log, of
length 1 exactly when the operation is a successful issue or return. -/
theorem applyOp_logs (sys : Sys) (op : Op) :
    ∃ tail, (applyOp sys op).lib.logs = sys.lib.logs ++ tail ∧
      tail.length = succCount sys [op] := by
  cases op with
  | issue bid sid now =>
    rcases issue_book_cases sys bid sid now with ⟨h1, h2⟩ | ⟨book, student, hb, hs, hc, hl, heq⟩
    · refine ⟨[], ?_, ?_⟩
      · show (issue_book sys bid sid now).2.lib.logs = _
        rw [h2]
        simp
      · simp [succCount, h1]
    · refine ⟨[⟨"issue", bid, sid, Date.fmt now⟩], ?_, ?_⟩
      · show (issue_book sys bid sid now).2.lib.logs = _
        rw [heq]
        exact issueSucc_logs sys bid sid now
      · have h1 : (issue_book sys bid sid now).1.isIssued = true := by
          rw [heq]
          rfl
        simp [succCount, h1]
  | ret bid sid rd now =>
    rcases return_book_cases sys bid sid rd now with ⟨h1, h2⟩ |
      ⟨book, student, first, rest, chunk, pen, hb, hs, hf, hsp, hpen, heq⟩
    · refine ⟨[], ?_, ?_⟩
      · show (return_book sys bid sid rd now).2.lib.logs = _
        rw [h2]
        simp
      · simp [succCount, h1]
    · refine ⟨[⟨"return", bid, sid, Date.fmt now⟩], ?_, ?_⟩
      · show (return_book sys bid sid rd now).2.lib.logs = _
        rw [heq]
        exact retSucc_logs sys bid sid first now
      · have h1 : (return_book sys bid sid rd now).1.isSuccess = true := by
          rw [heq]
          rfl
        simp [succCount, h1]
  | addBook bid t a c =>
    exact ⟨[], by simp [applyOp, add_book, save_data], by simp [succCount]⟩
  | addStudent sid n =>
    exact ⟨[], by simp [applyOp, add_student, save_data], by simp [succCount]⟩

/-- C7 (amended): every successful issue appends exactly one Issue
entry and every successful return exactly one Return entry, carrying
the transaction's ids and dated with the operation-time current date
(`datetime.now()`) in both cases — not the caller-supplied return date;
over any operation sequence the log grows by exactly the number of
successful issues plus successful returns, and existing entries are
never edited or removed (the old log is always a prefix of the new). -/
theorem audit_log_spec :
    (∀ (sys : Sys) (bid sid : String) (now : Date),
      (issue_book sys bid sid now).1.isIssued = true →
      (issue_book sys bid sid now).2.lib.logs =
        sys.lib.logs ++ [⟨"issue", bid, sid, Date.fmt now⟩]) ∧
    (∀ (sys : Sys) (bid sid rd : String) (now : Date) (pen : Int),
      (return_book sys bid sid rd now).1 = .success pen →
      (return_book sys bid sid rd now).2.lib.logs =
        sys.lib.logs ++ [⟨"return", bid, sid, Date.fmt now⟩]) ∧
    (∀ (sys : Sys) (ops : List Op),
      (applyOps sys ops).lib.logs.length = sys.lib.logs.length + succCount sys ops) ∧
    (∀ (sys : Sys) (ops : List Op), ∃ tail,
      (applyOps sys ops).lib.logs = sys.lib.logs ++ tail) := by
  refine ⟨?_, ?_, ?_, ?_⟩
  · intro sys bid sid now h
    rcases issue_book_cases sys bid sid now with ⟨h1, -⟩ | ⟨book, student, -, -, -, -, heq⟩
    · rw [h] at h1
      simp at h1
    · rw [heq]
      exact issueSucc_logs sys bid sid now
  · intro sys bid sid rd now pen h
    rcases return_book_cases sys bid sid rd now with ⟨h1, -⟩ |
      ⟨book, student, first, rest, chunk, pen', -, -, -, -, -, heq⟩
    · rw [h] at h1
      simp [ReturnRes.isSuccess] at h1
    · rw [heq]
      exact retSucc_logs sys bid sid first now
  · intro sys ops
    induction ops generalizing sys with
    | nil => simp [applyOps, succCount]
    | cons op rest ih =>
      have hstep : applyOps sys (op :: rest) = applyOps (applyOp sys op) rest := rfl
      rw [hstep, ih (applyOp sys op), succCount_cons]
      obtain ⟨tail, htl, hlen⟩ := applyOp_logs sys op
      rw [htl]
      simp only [List.length_append]
      omega
  · intro sys ops
    induction ops generalizing sys with
    | nil => exact ⟨[], by simp [applyOps]⟩
    | cons op rest ih =>
      have hstep : applyOps sys (op :: rest) = applyOps (applyOp sys op) rest := rfl
      obtain ⟨t1, h1, -⟩ := applyOp_logs sys op
      obtain ⟨t2, h2⟩ := ih (applyOp sys op)
      exact ⟨t1 ++ t2, by rw [hstep, h2, h1, List.append_assoc]⟩

/-- C7 counterexample: a successful back-dated return (return date
2024-01-01, operation date 2024-06-01) writes a log entry dated with
the operation date, not the caller-supplied return date the claim
names. -/
theorem audit_log_return_date_counterexample :
    (return_book wSysRet "B1" "S1" "2024-01-01" ⟨2024, 6, 1⟩).1 = .success 0 ∧
    (return_book wSysRet "B1" "S1" "2024-01-01" ⟨2024, 6, 1⟩).2.lib.logs =
      [⟨"return", "B1", "S1", "2024-06-01"⟩] ∧
    ("2024-06-01" : String) ≠ "2024-01-01" := by decide

/-- Witness for C7 (amended): the two append equations evaluated on
concrete successful transactions. -/
theorem audit_log_spec_witness :
    (issue_book wSys "B1" "S1" wNow).2.lib.logs =
      wSys.lib.logs ++ [⟨"issue", "B1", "S1", Date.fmt wNow⟩] ∧
    (return_book wSysRet "B1" "S1" "2024-01-10" wNow).2.lib.logs =
      wSysRet.lib.logs ++ [⟨"return", "B1", "S1", Date.fmt wNow⟩] :=
  ⟨audit_log_spec.1 wSys "B1" "S1" wNow (by decide),
   audit_log_spec.2.1 wSysRet "B1" "S1" "2024-01-10" wNow 7 (by decide)⟩

/-- Lowercasing the empty string gives the empty string. -/
theorem pyLower_empty : pyLower "" = "" := rfl

/-- C8: `search_book` returns exactly the (dicts of the) books whose
title or author contains the query as a case-insensitive substring,
the empty query matching every book; `search_student` returns exactly
the students whose name contains the query case-insensitively or whose
id equals the query exactly (case-sensitively).  Both searches are pure
functions of the state, so repeating a query without intervening
mutation returns identical results. -/
theorem search_spec :
    (∀ (sys : Sys) (q : String) (r : BookRow),
      r ∈ search_book sys q ↔ ∃ b, b ∈ sys.lib.books ∧
        (strContains (pyLower b.title) (pyLower q) = true ∨
         strContains (pyLower b.author) (pyLower q) = true) ∧ r = b.to_csv) ∧
    (∀ sys : Sys, search_book sys "" = sys.lib.books.map Book.to_csv) ∧
    (∀ (sys : Sys) (q : String) (r : StudentRow),
      r ∈ search_student sys q ↔ ∃ s, s ∈ sys.lib.students ∧
        (strContains (pyLower s.name) (pyLower q) = true ∨ q = s.student_id) ∧
        r = s.to_csv) ∧
    (∀ sys : Sys, search_student sys "" = sys.lib.students.map Student.to_csv) := by
  refine ⟨?_, ?_, ?_, ?_⟩
  · intro sys q r
    simp only [search_book, List.mem_map, List.mem_filter, Bool.or_eq_true]
    constructor
    · rintro ⟨b, ⟨hmem, hpred⟩, rfl⟩
      exact ⟨b, hmem, hpred, rfl⟩
    · rintro ⟨b, hmem, hpred, rfl⟩
      exact ⟨b, ⟨hmem, hpred⟩, rfl⟩
  · intro sys
    simp only [search_book]
    rw [List.filter_eq_self.mpr]
    intro a ha
    rw [pyLower_empty]
    simp [strContains_empty]
  · intro sys q r
    simp only [search_student, List.mem_map, List.mem_filter, Bool.or_eq_true, beq_iff_eq]
    constructor
    · rintro ⟨s, ⟨hmem, hpred⟩, rfl⟩
      exact ⟨s, hmem, hpred, rfl⟩
    · rintro ⟨s, hmem, hpred, rfl⟩
      exact ⟨s, ⟨hmem, hpred⟩, rfl⟩
  · intro sys
    simp only [search_student]
    rw [List.filter_eq_self.mpr]
    intro a ha
    rw [pyLower_empty]
    simp [strContains_empty]

/-- Witness for C8: the two membership characterizations evaluated on
a concrete system and query. -/
theorem search_spec_witness :
    (wBook.to_csv ∈ search_book wSys "dun" ↔ ∃ b, b ∈ wSys.lib.books ∧
      (strContains (pyLower b.title) (pyLower "dun") = true ∨
       strContains (pyLower b.author) (pyLower "dun") = true) ∧
      wBook.to_csv = b.to_csv) ∧
    (wStudent.to_csv ∈ search_student wSys "S1" ↔ ∃ s, s ∈ wSys.lib.students ∧
      (strContains (pyLower s.name) (pyLower "S1") = true ∨ "S1" = s.student_id) ∧
      wStudent.to_csv = s.to_csv) :=
  ⟨search_spec.1 wSys "dun" wBook.to_csv, search_spec.2.2.1 wSys "S1" wStudent.to_csv⟩

/-- C4: for valid calendar dates, the penalty is 0 when the day
difference minus the 2-day grace period is not positive, and otherwise
`min(overdue_days * 1, 50)`; it is always a non-negative integer, and
the three concrete examples from the specification hold. -/
theorem penalty_formula (due ret : Date) (hd : due.valid = true) (hr : ret.valid = true) :
    ((((ret.toDays : Int) - (due.toDays : Int)) - 2 ≤ 0 →
      calculate_penalty due ret = 0) ∧
     (0 < ((ret.toDays : Int) - (due.toDays : Int)) - 2 →
      calculate_penalty due ret =
        min ((((ret.toDays : Int) - (due.toDays : Int)) - 2) * 1) 50) ∧
     0 ≤ calculate_penalty due ret) ∧
    calculate_penalty ⟨2024, 1, 1⟩ ⟨2024, 1, 1⟩ = 0 ∧
    calculate_penalty ⟨2024, 1, 1⟩ ⟨2024, 1, 4⟩ = 1 ∧
    calculate_penalty ⟨2024, 1, 1⟩ ⟨2024, 6, 1⟩ = 50 := by
  have hcp : calculate_penalty due ret =
      if ((ret.toDays : Int) - (due.toDays : Int)) - 2 ≤ 0 then 0
      else min ((((ret.toDays : Int) - (due.toDays : Int)) - 2) * 1) 50 := rfl
  refine ⟨⟨fun h => ?_, fun h => ?_, ?_⟩, by decide, by decide, by decide⟩
  · rw [hcp, if_pos h]
  · rw [hcp, if_neg (by omega)]
  · rw [hcp]
    split_ifs with h
    · exact le_refl 0
    · refine le_min ?_ (by norm_num)
      rw [mul_one]
      omega

/-- Witness for C4: the formula evaluated at the specification's
grace-boundary example. -/
theorem penalty_formula_witness :
    ((((Date.toDays ⟨2024, 1, 4⟩ : Int) - (Date.toDays ⟨2024, 1, 1⟩ : Int)) - 2 ≤ 0 →
      calculate_penalty ⟨2024, 1, 1⟩ ⟨2024, 1, 4⟩ = 0) ∧
     (0 < ((Date.toDays ⟨2024, 1, 4⟩ : Int) - (Date.toDays ⟨2024, 1, 1⟩ : Int)) - 2 →
      calculate_penalty ⟨2024, 1, 1⟩ ⟨2024, 1, 4⟩ =
        min ((((Date.toDays ⟨2024, 1, 4⟩ : Int) - (Date.toDays ⟨2024, 1, 1⟩ : Int)) - 2) * 1)
          50) ∧
     0 ≤ calculate_penalty ⟨2024, 1, 1⟩ ⟨2024, 1, 4⟩) ∧
    calculate_penalty ⟨2024, 1, 1⟩ ⟨2024, 1, 1⟩ = 0 ∧
    calculate_penalty ⟨2024, 1, 1⟩ ⟨2024, 1, 4⟩ = 1 ∧
    calculate_penalty ⟨2024, 1, 1⟩ ⟨2024, 6, 1⟩ = 50 :=
  penalty_formula ⟨2024, 1, 1⟩ ⟨2024, 1, 4⟩ (by decide) (by decide)

/-- C10: a successful issue or return touches only the first book
matching `book_id` and the first student matching `student_id`; every
other book and student is left in place unchanged, the collections keep
their length, and the affected book and student keep all fields other
than `available_copies` / `borrowed_books` (visible in the record
updates). -/
theorem frame_conditions :
    (∀ (sys : Sys) (bid sid : String) (now : Date) (book : Book) (student : Student),
      List.find? (fun b => b.book_id == bid) sys.lib.books = some book →
      List.find? (fun s => s.student_id == sid) sys.lib.students = some student →
      0 < book.available_copies →
      student.borrowed_books.length < 3 →
      ((∀ b, b ∈ sys.lib.books → b.book_id ≠ bid →
          b ∈ (issue_book sys bid sid now).2.lib.books) ∧
       (∀ b, b ∈ (issue_book sys bid sid now).2.lib.books → b.book_id ≠ bid →
          b ∈ sys.lib.books) ∧
       (issue_book sys bid sid now).2.lib.books.length = sys.lib.books.length ∧
       (∀ st, st ∈ sys.lib.students → st.student_id ≠ sid →
          st ∈ (issue_book sys bid sid now).2.lib.students) ∧
       (∀ st, st ∈ (issue_book sys bid sid now).2.lib.students → st.student_id ≠ sid →
          st ∈ sys.lib.students) ∧
       (issue_book sys bid sid now).2.lib.students.length = sys.lib.students.length ∧
       List.find? (fun b => b.book_id == bid) (issue_book sys bid sid now).2.lib.books =
         some { book with available_copies := book.available_copies - 1 } ∧
       List.find? (fun s => s.student_id == sid) (issue_book sys bid sid now).2.lib.students =
         some { student with borrowed_books := student.borrowed_books ++
           [bid ++ " (Due: " ++ Date.fmt (addDays now 14) ++ ")"] })) ∧
    (∀ (sys : Sys) (bid sid rd : String) (now : Date) (book : Book) (student : Student)
      (pen : Int),
      List.find? (fun b => b.book_id == bid) sys.lib.books = some book →
      List.find? (fun s => s.student_id == sid) sys.lib.students = some student →
      (return_book sys bid sid rd now).1 = .success pen →
      ((∀ b, b ∈ sys.lib.books → b.book_id ≠ bid →
          b ∈ (return_book sys bid sid rd now).2.lib.books) ∧
       (∀ b, b ∈ (return_book sys bid sid rd now).2.lib.books → b.book_id ≠ bid →
          b ∈ sys.lib.books) ∧
       (return_book sys bid sid rd now).2.lib.books.length = sys.lib.books.length ∧
       (∀ st, st ∈ sys.lib.students → st.student_id ≠ sid →
          st ∈ (return_book sys bid sid rd now).2.lib.students) ∧
       (∀ st, st ∈ (return_book sys bid sid rd now).2.lib.students → st.student_id ≠ sid →
          st ∈ sys.lib.students) ∧
       (return_book sys bid sid rd now).2.lib.students.length = sys.lib.students.length ∧
       List.find? (fun b => b.book_id == bid) (return_book sys bid sid rd now).2.lib.books =
         some { book with available_copies := book.available_copies + 1 } ∧
       (∃ first, List.find? (fun s => s.student_id == sid)
          (return_book sys bid sid rd now).2.lib.students =
          some { student with borrowed_books := student.borrowed_books.erase first }))) := by
  constructor
  · intro sys bid sid now book student hb hs hc hl
    have hc' : ¬ book.available_copies ≤ 0 := by omega
    have hcb : student.can_borrow = true := by
      simp only [Student.can_borrow, decide_eq_true_eq]
      omega
    have heq : issue_book sys bid sid now =
        (.issued (addDays now 14), issueSuccState sys bid sid now) := by
      simp [issue_book, hb, hs, hc', hcb, issueSuccState]
    have hbooks : (issue_book sys bid sid now).2.lib.books =
        updateFirst (fun b => b.book_id == bid)
          (fun b => { b with available_copies := b.available_copies - 1 })
          sys.lib.books := by
      rw [heq]
      exact issueSucc_books sys bid sid now
    have hstudents : (issue_book sys bid sid now).2.lib.students =
        updateFirst (fun s => s.student_id == sid)
          (fun s => { s with borrowed_books := s.borrowed_books ++
            [bid ++ " (Due: " ++ Date.fmt (addDays now 14) ++ ")"] })
          sys.lib.students := by
      rw [heq]
      exact issueSucc_students sys bid sid now
    refine ⟨?_, ?_, ?_, ?_, ?_, ?_, ?_, ?_⟩
    · intro b hbm hne
      rw [hbooks]
      exact mem_updateFirst_of_not hbm (by simp [hne])
    · intro b hbm hne
      rw [hbooks] at hbm
      exact mem_of_mem_updateFirst hbm (by simp [hne]) (fun a ha => ha)
    · rw [hbooks]
      exact length_updateFirst _ _ _
    · intro st hstm hne
      rw [hstudents]
      exact mem_updateFirst_of_not hstm (by simp [hne])
    · intro st hstm hne
      rw [hstudents] at hstm
      exact mem_of_mem_updateFirst hstm (by simp [hne]) (fun a ha => ha)
    · rw [hstudents]
      exact length_updateFirst _ _ _
    · rw [hbooks, find?_updateFirst (fun b => b.book_id == bid)
        (fun b => { b with available_copies := b.available_copies - 1 })
        (fun a ha => ha) sys.lib.books, hb]
      rfl
    · rw [hstudents, find?_updateFirst (fun s => s.student_id == sid)
        (fun s => { s with borrowed_books := s.borrowed_books ++
          [bid ++ " (Due: " ++ Date.fmt (addDays now 14) ++ ")"] })
        (fun a ha => ha) sys.lib.students, hs]
      rfl
  · intro sys bid sid rd now book student pen hb hs hres
    rcases return_book_cases sys bid sid rd now with ⟨h1, -⟩ |
      ⟨book', student', first, rest, chunk, pen', hb', hs', hf, hsp, hpen, heq⟩
    · rw [hres] at h1
      simp [ReturnRes.isSuccess] at h1
    · rw [hb] at hb'
      obtain rfl : book = book' := by injection hb'
      rw [hs] at hs'
      obtain rfl : student = student' := by injection hs'
      have hbooks : (return_book sys bid sid rd now).2.lib.books =
          updateFirst (fun b => b.book_id == bid)
            (fun b => { b with available_copies := b.available_copies + 1 })
            sys.lib.books := by
        rw [heq]
        exact retSucc_books sys bid sid first now
      have hstudents : (return_book sys bid sid rd now).2.lib.students =
          updateFirst (fun s => s.student_id == sid)
            (fun s => { s with borrowed_books := s.borrowed_books.erase first })
            sys.lib.students := by
        rw [heq]
        exact retSucc_students sys bid sid first now
      refine ⟨?_, ?_, ?_, ?_, ?_, ?_, ?_, first, ?_⟩
      · intro b hbm hne
        rw [hbooks]
        exact mem_updateFirst_of_not hbm (by simp [hne])
      · intro b hbm hne
        rw [hbooks] at hbm
        exact mem_of_mem_updateFirst hbm (by simp [hne]) (fun a ha => ha)
      · rw [hbooks]
        exact length_updateFirst _ _ _
      · intro st hstm hne
        rw [hstudents]
        exact mem_updateFirst_of_not hstm (by simp [hne])
      · intro st hstm hne
        rw [hstudents] at hstm
        exact mem_of_mem_updateFirst hstm (by simp [hne]) (fun a ha => ha)
      · rw [hstudents]
        exact length_updateFirst _ _ _
      · rw [hbooks, find?_updateFirst (fun b => b.book_id == bid)
          (fun b => { b with available_copies := b.available_copies + 1 })
          (fun a ha => ha) sys.lib.books, hb]
        rfl
      · rw [hstudents, find?_updateFirst (fun s => s.student_id == sid)
          (fun s => { s with borrowed_books := s.borrowed_books.erase first })
          (fun a ha => ha) sys.lib.students, hs]
        rfl

/-- Witness for C10: both frame conditions evaluated on concrete
successful transactions. -/
theorem frame_conditions_witness :
    ((∀ b, b ∈ wSys.lib.books → b.book_id ≠ "B1" →
        b ∈ (issue_book wSys "B1" "S1" wNow).2.lib.books) ∧
     (∀ b, b ∈ (issue_book wSys "B1" "S1" wNow).2.lib.books → b.book_id ≠ "B1" →
        b ∈ wSys.lib.books) ∧
     (issue_book wSys "B1" "S1" wNow).2.lib.books.length = wSys.lib.books.length ∧
     (∀ st, st ∈ wSys.lib.students → st.student_id ≠ "S1" →
        st ∈ (issue_book wSys "B1" "S1" wNow).2.lib.students) ∧
     (∀ st, st ∈ (issue_book wSys "B1" "S1" wNow).2.lib.students → st.student_id ≠ "S1" →
        st ∈ wSys.lib.students) ∧
     (issue_book wSys "B1" "S1" wNow).2.lib.students.length = wSys.lib.students.length ∧
     List.find? (fun b => b.book_id == "B1") (issue_book wSys "B1" "S1" wNow).2.lib.books =
       some { wBook with available_copies := wBook.available_copies - 1 } ∧
     List.find? (fun s => s.student_id == "S1") (issue_book wSys "B1" "S1" wNow).2.lib.students =
       some { wStudent with borrowed_books := wStudent.borrowed_books ++
         ["B1" ++ " (Due: " ++ Date.fmt (addDays wNow 14) ++ ")"] }) ∧
    ((∀ b, b ∈ wSysRet.lib.books → b.book_id ≠ "B1" →
        b ∈ (return_book wSysRet "B1" "S1" "2024-01-10" wNow).2.lib.books) ∧
     (∀ b, b ∈ (return_book wSysRet "B1" "S1" "2024-01-10" wNow).2.lib.books →
        b.book_id ≠ "B1" → b ∈ wSysRet.lib.books) ∧
     (return_book wSysRet "B1" "S1" "2024-01-10" wNow).2.lib.books.length =
       wSysRet.lib.books.length ∧
     (∀ st, st ∈ wSysRet.lib.students → st.student_id ≠ "S1" →
        st ∈ (return_book wSysRet "B1" "S1" "2024-01-10" wNow).2.lib.students) ∧
     (∀ st, st ∈ (return_book wSysRet "B1" "S1" "2024-01-10" wNow).2.lib.students →
        st.student_id ≠ "S1" → st ∈ wSysRet.lib.students) ∧
     (return_book wSysRet "B1" "S1" "2024-01-10" wNow).2.lib.students.length =
       wSysRet.lib.students.length ∧
     List.find? (fun b => b.book_id == "B1")
       (return_book wSysRet "B1" "S1" "2024-01-10" wNow).2.lib.books =
       some { (⟨"B1", "Dune", "Herbert", 1⟩ : Book) with
         available_copies := (⟨"B1", "Dune", "Herbert", 1⟩ : Book).available_copies + 1 } ∧
     (∃ first, List.find? (fun s => s.student_id == "S1")
        (return_book wSysRet "B1" "S1" "2024-01-10" wNow).2.lib.students =
        some { (⟨"S1", "Ann", ["B1 (Due: 2024-01-01)"]⟩ : Student) with
          borrowed_books :=
            (⟨"S1", "Ann", ["B1 (Due: 2024-01-01)"]⟩ : Student).borrowed_books.erase first })) :=
  ⟨frame_conditions.1 wSys "B1" "S1" wNow wBook wStudent
     (by decide) (by decide) (by decide) (by decide),
   frame_conditions.2 wSysRet "B1" "S1" "2024-01-10" wNow
     ⟨"B1", "Dune", "Herbert", 1⟩ ⟨"S1", "Ann", ["B1 (Due: 2024-01-01)"]⟩ 7
     (by decide) (by decide) (by decide)⟩

/-- C9: the save-then-load round trip is NOT the identity on a student
with an empty `borrowed_books` list: `",".join([])` stores the empty
string, and reloading splits it into `[""]`, a phantom single
empty-string loan (`"".split(",") == [""]` in Python).  Books and logs
do round-trip on this state; the claim fails only on the student
collection. -/
theorem save_load_roundtrip_bug :
    loadLib (saveAll c9Lib) ≠ c9Lib ∧
    (loadLib (saveAll c9Lib)).students = [⟨"S1", "Ann", [""]⟩] ∧
    c9Lib.students = [⟨"S1", "Ann", []⟩] ∧
    (loadLib (saveAll c9Lib)).books = c9Lib.books ∧
    (loadLib (saveAll c9Lib)).logs = c9Lib.logs := by decide
